import Mathlib

/-!
Verification of the rabbitpy transport core (src/rabbitpy/io.py) and the
rmqid Message class (src/rmqid/message.py) against its natural-language
specification.

The embedding is shallow: byte strings are `List Nat`, protocol frames are
either an abstract type parameter `F` (the transport never inspects them;
only the external pamqp codec does) or the concrete `AMQPFrame` type for
the Message layer. Stateful Python code becomes explicit state passing;
Python exceptions become `Except` / `Option PyExc` values.
-/

namespace Rabbitpy

/-- The named flags of the shared event object (rabbitpy.events):
SOCKET_OPENED, SOCKET_CLOSE, SOCKET_CLOSED, EXCEPTION_RAISED.
Each is independently settable. -/
structure Signals where
  socket_opened : Bool := false
  socket_close : Bool := false
  socket_closed : Bool := false
  exception_raised : Bool := false
  deriving DecidableEq

/-- Structured failure objects placed on the exception stack (the Fault
Sink): rabbitpy.exceptions.ConnectionResetException and
rabbitpy.exceptions.ConnectionException, each built from host, port and a
message (io.py `IO.on_error`, `IO._connect`). -/
inductive Fault where
  | connReset (host : String) (port : Nat) (msg : String)
  | connError (host : String) (port : Nat) (msg : String)
  deriving DecidableEq

/-- Python exception classes relevant to the transport control flow.
`keyError` models `KeyError` from a dict lookup; `socketError`/`socketTimeout`
model `socket.error` (with an errno) and `socket.timeout`; `actionError`
models rmqid.exceptions.ActionException. -/
inductive PyExc where
  | keyError
  | socketError (errno : Nat)
  | socketTimeout
  | actionError
  deriving DecidableEq

/-- Lifecycle states of the stateful IO object (base.StatefulObject). -/
inductive ConnState where
  | OPENING
  | OPEN
  | CLOSING
  | CLOSED
  deriving DecidableEq

/-- The I/O operations one `IOLoop._poll` iteration may perform after the
poller returns: draining the write trigger, one socket read, one socket
write. -/
inductive IOAction where
  | clearTrigger
  | readAction
  | writeAction
  deriving DecidableEq

/-- Outcome of a single `fd.send(frame_data)` call in `IOLoop._write`:
either it returns a byte count, or raises socket.timeout, or raises a
socket.error carrying an errno. -/
inductive SendResult where
  | ok (n : Nat)
  | timeout
  | err (errno : Nat)
  deriving DecidableEq

/-- Outcome of a single `fd.recv(MAX_READ)` call in `IOLoop._read`. -/
inductive RecvResult where
  | ok (data : List Nat)
  | timeout
  | err (errno : Nat)
  deriving DecidableEq

/-- Observable dispatch events of the `IO.on_read` loop body
(io.py lines 383-390): acquiring/releasing the RLock around the
synchronous channel-0 `on_frame` call, and a `Queue.put` on a non-zero
channel's inbound queue. -/
inductive DispatchEvent (F : Type) where
  | lockAcquire
  | onFrame0 (f : F)
  | lockRelease
  | queuePut (chan : Nat) (f : F)
  deriving DecidableEq

/-- How `IO.run` proceeds after `IO._connect` returns: if no socket was
obtained it logs a warning and returns; otherwise it constructs and runs
the IOLoop. -/
inductive RunPhase where
  | returnedNoSocket
  | enteredLoop
  deriving DecidableEq

/-- State owned by the IOLoop thread (the `threading.local` bag built in
`IOLoop.__init__`) together with the IO-level fields its callbacks touch:
the outbound write queue of `(channel_id, frame)` pairs, the deque of
marshaled byte chunks, the shared events object, the exception stack, and
the configuration captured by the `IO.on_error` callback. `transmitted`
records the bytes accepted by `fd.send`; `received` records the bytes
handed to the read callback. -/
structure LoopState (F : Type) where
  write_queue : List (Nat × F)
  write_buffer : List (List Nat)
  transmitted : List Nat
  received : List Nat
  running : Bool
  host : String
  port : Nat
  chan0open : Bool
  signals : Signals
  faults : List Fault
  deriving DecidableEq

/-- `IO.on_error` (io.py lines 354-366): classify by whether the channel-0
consumer reports itself open, put exactly one fault on the exception
stack, and set EXCEPTION_RAISED. -/
def on_error (host : String) (port : Nat) (chan0open : Bool) (msg : String)
    (faults : List Fault) (sigs : Signals) : List Fault × Signals :=
  (faults ++ [if chan0open then Fault.connReset host port msg
              else Fault.connError host port msg],
   { sigs with exception_raised := true })

/-- `frame.marshal(data[1], data[0])` applied to one write-queue entry
`data = (channel_id, frame)` (io.py line 218). The external pamqp
marshal is the parameter `marshal : F → Nat → List Nat`. -/
def marshalPair {F : Type} (marshal : F → Nat → List Nat) (d : Nat × F) : List Nat :=
  marshal d.2 d.1

/-- The drain loop at the top of `IOLoop._poll` (io.py lines 216-218):
move every pending `(channel_id, frame)` pair off the write queue,
marshal it, and append the bytes to the back of the write buffer,
preserving arrival order. -/
def drain_write_queue {F : Type} (marshal : F → Nat → List Nat) (s : LoopState F) :
    LoopState F :=
  { s with write_queue := [],
           write_buffer := s.write_buffer ++ s.write_queue.map (marshalPair marshal) }

/-- `IOLoop._read` (io.py lines 241-254): skip when not running; on a
successful recv hand the bytes to the read callback; socket.timeout is
logged and ignored; any other socket.error clears running and invokes the
error callback (`IO.on_error`). -/
def ioloop_read {F : Type} (s : LoopState F) (r : RecvResult) : LoopState F :=
  if s.running = false then s
  else
    match r with
    | RecvResult.ok data => { s with received := s.received ++ data }
    | RecvResult.timeout => s
    | RecvResult.err _ =>
        let fs := on_error s.host s.port s.chan0open "socket.error" s.faults s.signals
        { s with running := false, faults := fs.1, signals := fs.2 }

/-- `IOLoop._write` (io.py lines 256-278): skip when not running; pop the
front chunk of the write buffer and try one send. On socket.timeout the
chunk is re-inserted at the front (buffer unchanged). On socket.error the
code compares the errno against the literal 35: a match re-inserts the
chunk at the front; any other errno clears running and invokes the error
callback, with the popped chunk never re-inserted. On a successful send of
`n` bytes, if `n` is short the unsent suffix is re-inserted at the front. -/
def ioloop_write {F : Type} (s : LoopState F) (r : SendResult) : LoopState F :=
  if s.running = false then s
  else
    match s.write_buffer with
    | [] => s
    | frame_data :: rest =>
      match r with
      | SendResult.ok bytes_sent =>
          { s with transmitted := s.transmitted ++ frame_data.take bytes_sent,
                   write_buffer := if bytes_sent < frame_data.length
                                   then frame_data.drop bytes_sent :: rest
                                   else rest }
      | SendResult.timeout => { s with write_buffer := frame_data :: rest }
      | SendResult.err e =>
          if e = 35 then { s with write_buffer := frame_data :: rest }
          else
            let fs := on_error s.host s.port s.chan0open "socket.error" s.faults s.signals
            { s with running := false, write_buffer := rest,
                     faults := fs.1, signals := fs.2 }

/-- One `IOLoop._poll` iteration (io.py lines 210-239). The poller result
`(rlist, wlist, xlist)` and the outcomes of the at-most-one recv and
at-most-one send are inputs from the environment. A non-empty errored set
short-circuits: SOCKET_CLOSE is set, the error callback runs with the
message "Connection reset", and no trigger drain, read or write happens.
Otherwise the trigger is drained if readable, one read happens if the data
socket is readable, and one write happens if the socket is writable and
the write buffer is non-empty. The returned list records which I/O
actions the iteration performed. -/
def ioloop_poll {F : Type} (marshal : F → Nat → List Nat) (s : LoopState F)
    (rlist wlist xlist : List Nat) (dataFd triggerFd : Nat)
    (recvRes : RecvResult) (sendRes : SendResult) :
    LoopState F × List IOAction :=
  let s1 := drain_write_queue marshal s
  if xlist.isEmpty = false then
    let sigs := { s1.signals with socket_close := true }
    let fs := on_error s1.host s1.port s1.chan0open "Connection reset" s1.faults sigs
    ({ s1 with signals := fs.2, faults := fs.1 }, [])
  else
    let a1 := if triggerFd ∈ rlist then [IOAction.clearTrigger] else []
    let s3 := if dataFd ∈ rlist then ioloop_read s1 recvRes else s1
    let a2 := if dataFd ∈ rlist then [IOAction.readAction] else []
    let doWrite := wlist.isEmpty = false ∧ s3.write_buffer.isEmpty = false
    let s4 := if doWrite then ioloop_write s3 sendRes else s3
    let a3 := if doWrite then [IOAction.writeAction] else []
    (s4, a1 ++ a2 ++ a3)

/-- The schedule alphabet for the outbound path: a producer enqueues a
`(channel_id, frame)` pair on the write queue; the loop drains the queue
into the write buffer; a send attempt accepts `n` bytes (a partial send
when `n` is short), times out, or fails with the
resource-temporarily-unavailable errno 35 handled by `IOLoop._write`. -/
inductive LoopEvent (F : Type) where
  | enq (chan : Nat) (f : F)
  | drain
  | send (n : Nat)
  | sendTimeout
  | sendEagain
  deriving DecidableEq

/-- Apply one schedule event to the loop state, via the modelled source
operations. -/
def applyEvent {F : Type} (marshal : F → Nat → List Nat) (s : LoopState F) :
    LoopEvent F → LoopState F
  | LoopEvent.enq c f => { s with write_queue := s.write_queue ++ [(c, f)] }
  | LoopEvent.drain => drain_write_queue marshal s
  | LoopEvent.send n => ioloop_write s (SendResult.ok n)
  | LoopEvent.sendTimeout => ioloop_write s SendResult.timeout
  | LoopEvent.sendEagain => ioloop_write s (SendResult.err 35)

/-- Run the loop over a schedule of events. -/
def loopRun {F : Type} (marshal : F → Nat → List Nat) (s : LoopState F) :
    List (LoopEvent F) → LoopState F
  | [] => s
  | e :: evs => loopRun marshal (applyEvent marshal s e) evs

/-- The initial state of a freshly constructed IOLoop with `run` started:
empty queue, empty buffer, nothing transmitted, running. -/
def initLoopState (F : Type) (host : String) (port : Nat) (chan0open : Bool) :
    LoopState F :=
  { write_queue := [], write_buffer := [], transmitted := [], received := [],
    running := true, host := host, port := port, chan0open := chan0open,
    signals := {}, faults := [] }

/-- The marshaled bytes a single schedule event adds to the outbound
stream: only enqueue events add bytes. -/
def eventBytes {F : Type} (marshal : F → Nat → List Nat) : LoopEvent F → List Nat
  | LoopEvent.enq c f => marshal f c
  | _ => []

/-- Concatenation of the marshaled forms of all frames enqueued by a
schedule, in enqueue order. -/
def enqueuedBytes {F : Type} (marshal : F → Nat → List Nat) :
    List (LoopEvent F) → List Nat
  | [] => []
  | e :: evs => eventBytes marshal e ++ enqueuedBytes marshal evs

/-- Bytes still pending transmission: the write buffer chunks in order,
followed by the not-yet-marshaled write queue in order. -/
def pendingBytes {F : Type} (marshal : F → Nat → List Nat) (s : LoopState F) :
    List Nat :=
  s.write_buffer.flatten ++ (s.write_queue.map (marshalPair marshal)).flatten

/-- `IO._get_frame_from_str` (io.py lines 495-514): an empty value yields
no frame; a failed unmarshal (UnmarshalingException or AMQPFrameError)
yields no frame and leaves the value intact; success consumes
`byte_count` bytes and yields the channel id and frame. The external
pamqp `frame.unmarshal` is the parameter `unmarshal`. -/
def get_frame_from_str {F : Type} (unmarshal : List Nat → Option (Nat × Nat × F))
    (value : List Nat) : List Nat × Option (Nat × F) :=
  if value.isEmpty then (value, none)
  else
    match unmarshal value with
    | none => (value, none)
    | some (byte_count, channel_id, frame_in) =>
        (value.drop byte_count, some (channel_id, frame_in))

/-- The `while self._buffer` loop of `IO.on_read` (io.py lines 368-390)
fused with `IO._read_frame`: repeatedly extract one frame from the front
of the buffer and record it, stopping when the buffer is empty or the
front is undecodable (in which case the leftover bytes stay buffered).
The fuel argument bounds the iteration count; since every successful
extraction consumes at least one byte, fuel equal to the buffer length is
enough (proved below). Returns the leftover buffer and the extracted
`(channel_id, frame)` pairs in decode order. -/
def drainFuel {F : Type} (unmarshal : List Nat → Option (Nat × Nat × F)) :
    Nat → List Nat → List Nat × List (Nat × F)
  | 0, buf => (buf, [])
  | fuel + 1, buf =>
    match get_frame_from_str unmarshal buf with
    | (_, none) => (buf, [])
    | (rest, some cf) =>
        let r := drainFuel unmarshal fuel rest
        (r.1, cf :: r.2)

/-- Extract every decodable frame from the front of a buffer. -/
def drain {F : Type} (unmarshal : List Nat → Option (Nat × Nat × F))
    (buf : List Nat) : List Nat × List (Nat × F) :=
  drainFuel unmarshal buf.length buf

/-- A read buffer on which the extraction loop has stopped: empty, or
with an undecodable front. Every buffer `IO.on_read` leaves behind is of
this shape. -/
def quiescent {F : Type} (unmarshal : List Nat → Option (Nat × Nat × F))
    (b : List Nat) : Prop :=
  b = [] ∨ unmarshal b = none

/-- `IO.on_read` (io.py lines 368-390) on the demultiplexing state
`(buffer, dispatched)`: append the delivered chunk to the read buffer,
then extract and dispatch frames until the front is undecodable. The
second component accumulates every dispatched `(channel_id, frame)` pair
in dispatch order. -/
def on_read {F : Type} (unmarshal : List Nat → Option (Nat × Nat × F))
    (st : List Nat × List (Nat × F)) (data : List Nat) :
    List Nat × List (Nat × F) :=
  let r := drain unmarshal (st.1 ++ data)
  (r.1, st.2 ++ r.2)

/-- Deliver a byte stream to `IO.on_read` one chunk at a time. -/
def processChunks {F : Type} (unmarshal : List Nat → Option (Nat × Nat × F))
    (st : List Nat × List (Nat × F)) (chunks : List (List Nat)) :
    List Nat × List (Nat × F) :=
  chunks.foldl (on_read unmarshal) st

/-- The dispatch taken by the `IO.on_read` loop body for one decoded
`(channel_id, frame)` pair (io.py lines 383-390): channel 0 acquires the
RLock, calls the channel-0 consumer's `on_frame` synchronously, and
releases the lock; any other channel id is a `Queue.put` on that
channel's inbound queue via `IO._add_frame_to_queue`. -/
def dispatchOne {F : Type} (d : Nat × F) : List (DispatchEvent F) :=
  if d.1 = 0 then [DispatchEvent.lockAcquire, DispatchEvent.onFrame0 d.2,
                   DispatchEvent.lockRelease]
  else [DispatchEvent.queuePut d.1 d.2]

/-- The full event trace of dispatching a decoded frame sequence in
order. -/
def dispatchTrace {F : Type} : List (Nat × F) → List (DispatchEvent F)
  | [] => []
  | d :: ds => dispatchOne d ++ dispatchTrace ds

/-- The dispatch-event trace produced by one `IO.on_read` call on a fresh
dispatch history: decode the buffered bytes plus the delivered chunk,
then dispatch each decoded frame in decode order. -/
def on_read_lock_trace {F : Type} (unmarshal : List Nat → Option (Nat × Nat × F))
    (buf data : List Nat) : List (DispatchEvent F) :=
  dispatchTrace (on_read unmarshal (buf, []) data).2

/-- Whether a channel id is a key of the `IO._channels` dict. The dict is
modelled as an association list from channel id to that channel's inbound
queue (the `[1]` component of the stored pair). -/
def registered {F : Type} (channels : List (Nat × List F)) (c : Nat) : Bool :=
  channels.any (fun p => p.1 == c)

/-- `IO._add_frame_to_queue` (io.py lines 402-411):
`self._channels[channel_id][1].put(frame_value)`. A missing key makes the
dict subscript raise KeyError; otherwise the frame is appended to the
channel's inbound queue. -/
def add_frame_to_queue {F : Type} (channels : List (Nat × List F))
    (channel_id : Nat) (frame_value : F) :
    Except PyExc (List (Nat × List F)) :=
  if registered channels channel_id then
    Except.ok (channels.map (fun p =>
      if p.1 = channel_id then (p.1, p.2 ++ [frame_value]) else p))
  else Except.error PyExc.keyError

/-- The dispatch portion of the `IO.on_read` loop over an already-decoded
frame sequence: channel 0 goes to `self._channels[0][0].on_frame` (a
KeyError if channel 0 is missing; the handler itself is the external
channel-0 consumer and leaves the registry unchanged), other ids go
through `IO._add_frame_to_queue`. The first uncaught exception aborts the
loop and is returned alongside the registry as updated so far. -/
def dispatch_decoded {F : Type} (channels : List (Nat × List F)) :
    List (Nat × F) → List (Nat × List F) × Option PyExc
  | [] => (channels, none)
  | (c, f) :: rest =>
    if c = 0 then
      if registered channels 0 then dispatch_decoded channels rest
      else (channels, some PyExc.keyError)
    else
      match add_frame_to_queue channels c f with
      | Except.ok chs => dispatch_decoded chs rest
      | Except.error e => (channels, some e)

/-- The IO-object state the dispatch path touches: the channel registry,
the exception stack (Fault Sink) and the shared signals, plus the
configuration `IO.on_error` captures. -/
structure IOState (F : Type) where
  channels : List (Nat × List F)
  faults : List Fault
  signals : Signals
  host : String
  port : Nat
  chan0open : Bool
  deriving DecidableEq

/-- The exception-handling layering around frame dispatch, from the
inside out: the dispatch loop runs inside `IOLoop._read`'s try block,
which catches only socket.timeout (logged) and socket.error (clears
running and calls `IO.on_error`); `IOLoop._poll` catches nothing; and
`IOLoop.run` catches only EnvironmentError, re-raising everything that is
not an EINTR retry. Hence a KeyError raised by dispatch escapes the I/O
thread, leaving the Fault Sink and the signals untouched; the returned
`Option PyExc` is the exception that escapes. -/
def read_dispatch_chain {F : Type} (st : IOState F) (ds : List (Nat × F)) :
    IOState F × Option PyExc :=
  let r := dispatch_decoded st.channels ds
  let st1 := { st with channels := r.1 }
  match r.2 with
  | none => (st1, none)
  | some PyExc.socketTimeout => (st1, none)
  | some (PyExc.socketError _) =>
      let fs := on_error st1.host st1.port st1.chan0open "socket.error"
                  st1.faults st1.signals
      ({ st1 with faults := fs.1, signals := fs.2 }, none)
  | some e => (st1, some e)

/-- `IO.add_channel` (io.py lines 314-322):
`self._channels[int(channel)] = channel, write_queue` — an unconditional
dict assignment, modelled over an association list: an existing binding
for the id is replaced, otherwise the new binding is appended. The entry
type is abstract (the source stores the `(channel, write_queue)` pair). -/
def add_channel {α : Type} (channels : List (Nat × α)) (id : Nat) (entry : α) :
    List (Nat × α) :=
  if channels.any (fun p => p.1 == id) then
    channels.map (fun p => if p.1 = id then (id, entry) else p)
  else channels ++ [(id, entry)]

/-- Dict lookup on the modelled channel registry. -/
def lookup_channel {α : Type} (channels : List (Nat × α)) (id : Nat) : Option α :=
  (channels.find? (fun p => p.1 == id)).map (fun p => p.2)

/-- Result of `IO._connect` (io.py lines 427-456): the socket obtained (if
any), the lifecycle state, the exception stack and the signals. -/
structure ConnectResult (α : Type) where
  sock : Option α
  state : ConnState
  faults : List Fault
  signals : Signals
  deriving DecidableEq

/-- `IO._connect` (io.py lines 427-456): set state OPENING, then try each
resolved address in order, keeping the first whose socket creation and
connect succeed (each failure is a caught socket.error and moves on). The
per-address outcome is the predicate `tryConnect`. With no success: put
exactly one ConnectionException (host, port, "Could not connect") on the
exception stack, set EXCEPTION_RAISED, and return — the state stays
OPENING. With a success: set SOCKET_OPENED and state OPEN. -/
def connect {α : Type} (addrs : List α) (tryConnect : α → Bool)
    (host : String) (port : Nat) (faults0 : List Fault) (sigs0 : Signals) :
    ConnectResult α :=
  match addrs.find? tryConnect with
  | some a =>
      { sock := some a, state := ConnState.OPEN, faults := faults0,
        signals := { sigs0 with socket_opened := true } }
  | none =>
      { sock := none, state := ConnState.OPENING,
        faults := faults0 ++ [Fault.connError host port "Could not connect"],
        signals := { sigs0 with exception_raised := true } }

/-- The connect phase of `IO.run` (io.py lines 324-332): call `_connect`;
if no socket was obtained, log a warning and return from the thread body
normally (no exception crosses the thread boundary — the `Except` is
always `ok` because `_connect` catches every per-address socket error
itself). Otherwise the IOLoop is constructed and entered. -/
def run_connect_phase {α : Type} (addrs : List α) (tryConnect : α → Bool)
    (host : String) (port : Nat) (faults0 : List Fault) (sigs0 : Signals) :
    Except PyExc (ConnectResult α × RunPhase) :=
  let r := connect addrs tryConnect host port faults0 sigs0
  match r.sock with
  | none => Except.ok (r, RunPhase.returnedNoSocket)
  | some _ => Except.ok (r, RunPhase.enteredLoop)

/-- The pamqp frame objects the rmqid Message class constructs:
specification.Basic.Ack / Basic.Nack / Basic.Reject carrying a delivery
tag, specification.Basic.Publish, header.ContentHeader with a body size,
and body.ContentBody with a payload slice. -/
inductive AMQPFrame where
  | basicAck (delivery_tag : Nat)
  | basicNack (delivery_tag : Nat)
  | basicReject (delivery_tag : Nat)
  | basicPublish (exchange : String) (routing_key : String)
  | contentHeader (body_size : Nat)
  | contentBody (payload : List Nat)
  deriving DecidableEq

/-- An rmqid Message (src/rmqid/message.py): `method` is the Basic.Deliver
or Basic.GetOk method the broker sent (carrying the delivery tag), absent
for a locally constructed message; `body` is the message body. -/
structure Message where
  method : Option Nat
  body : List Nat
  deriving DecidableEq

/-- `Message.ack` (message.py lines 77-90): raise ActionException when the
message was not received from a broker; otherwise write a
specification.Basic.Ack frame carrying the delivery tag. The returned
list is the frames written to the channel. -/
def Message.ack (m : Message) : Except PyExc (List AMQPFrame) :=
  match m.method with
  | none => Except.error PyExc.actionError
  | some tag => Except.ok [AMQPFrame.basicAck tag]

/-- `Message.nack` (message.py lines 92-103): raise ActionException when
the message was not received from a broker; otherwise the source
constructs `specification.Basic.Ack(self.method.delivery_tag)` (line 102)
— the same frame type as `ack` — and writes it to the channel. -/
def Message.nack (m : Message) : Except PyExc (List AMQPFrame) :=
  match m.method with
  | none => Except.error PyExc.actionError
  | some tag => Except.ok [AMQPFrame.basicAck tag]

/-- `Message.reject` (message.py lines 131-142): writes a
specification.Basic.Reject frame carrying the delivery tag. -/
def Message.reject (m : Message) : Except PyExc (List AMQPFrame) :=
  match m.method with
  | none => Except.error PyExc.actionError
  | some tag => Except.ok [AMQPFrame.basicReject tag]

/-- `Message.publish` (message.py lines 105-128): write the Basic.Publish
method frame, then a ContentHeader with the body length, then
`ceil(len(body) / maximum_frame_size)` ContentBody frames, each carrying
the slice `body[start:end]` with `start = maximum_frame_size * offset`
and `end` clamped to the body length. The ceiling division over floats is
modelled by Nat ceiling division, which agrees for a positive frame
size. -/
def Message.publish (m : Message) (exchange routing_key : String)
    (maximum_frame_size : Nat) : List AMQPFrame :=
  let pieces := (m.body.length + maximum_frame_size - 1) / maximum_frame_size
  AMQPFrame.basicPublish exchange routing_key ::
  AMQPFrame.contentHeader m.body.length ::
  (List.range pieces).map (fun offset =>
    let start := maximum_frame_size * offset
    let stop := min (start + maximum_frame_size) m.body.length
    AMQPFrame.contentBody ((m.body.take stop).drop start))

/-- A concrete frame codec used to instantiate the codec-parametric
theorems: a frame is `length :: channel :: payload`, decoded when the
whole payload is present; the frame value is the payload. It satisfies
the pamqp contract assumed by the chunking theorem: a successful decode
consumes between one byte and the whole input, and depends only on the
bytes it consumes. -/
def toyUnmarshal (b : List Nat) : Option (Nat × Nat × List Nat) :=
  match b with
  | len :: ch :: rest =>
      if len ≤ rest.length then some (2 + len, ch, rest.take len) else none
  | _ => none

/-- A concrete loop state with one three-byte chunk buffered, used to
evaluate the write path at concrete inputs. -/
def sampleLoopState : LoopState Nat :=
  { write_queue := [], write_buffer := [[1, 2, 3]], transmitted := [],
    received := [], running := true, host := "localhost", port := 5672,
    chan0open := true, signals := {}, faults := [] }

lemma lookup_map_replace {α : Type} (id : Nat) (entry : α) :
    ∀ chs : List (Nat × α), chs.any (fun p => p.1 == id) = true →
      lookup_channel (chs.map (fun p => if p.1 = id then (id, entry) else p)) id
        = some entry := by
  intro chs
  induction chs with
  | nil => intro h; simp at h
  | cons p chs ih =>
      intro h
      by_cases hp : p.1 = id
      · simp [lookup_channel, hp]
      · have h' : chs.any (fun p => p.1 == id) = true := by
          simp only [List.any_cons] at h
          rcases Bool.or_eq_true_iff.mp h with h1 | h1
          · exact absurd (by simpa using h1) hp
          · exact h1
        have := ih h'
        simp only [List.map_cons, if_neg hp]
        simpa [lookup_channel, List.find?_cons, hp] using this

lemma lookup_append_new {α : Type} (id : Nat) (entry : α) :
    ∀ chs : List (Nat × α), chs.any (fun p => p.1 == id) = false →
      lookup_channel (chs ++ [(id, entry)]) id = some entry := by
  intro chs
  induction chs with
  | nil => intro _; simp [lookup_channel]
  | cons p chs ih =>
      intro h
      simp only [List.any_cons, Bool.or_eq_false_iff] at h
      have hp : ¬ p.1 = id := by simpa using h.1
      have := ih h.2
      simp only [List.cons_append]
      simpa [lookup_channel, List.find?_cons, hp] using this

/-- Claim C6 counterexample: registering channel id 1 twice with two
different entries raises no error and silently replaces the first entry —
`add_channel` is an unconditional dict assignment, so the registry maps
id 1 first to one entry and then to the other with nothing flagged. -/
theorem c6_reregistration_counterexample :
    lookup_channel (add_channel ([] : List (Nat × Nat)) 1 10) 1 = some 10 ∧
    add_channel (add_channel ([] : List (Nat × Nat)) 1 10) 1 20 = [(1, 20)] ∧
    lookup_channel (add_channel (add_channel ([] : List (Nat × Nat)) 1 10) 1 20) 1
      = some 20 := by
  decide

/-- Claim C6 (amended): `IO.add_channel` performs an unconditional dict
assignment — registering any id, in use or not, makes the registry map
that id to the new entry, silently replacing any existing entry; no
uniqueness check exists and no error is ever raised. -/
theorem c6_add_channel_overwrites {α : Type} (channels : List (Nat × α))
    (id : Nat) (entry : α) :
    lookup_channel (add_channel channels id entry) id = some entry := by
  unfold add_channel
  by_cases h : channels.any (fun p => p.1 == id) = true
  · rw [if_pos h]
    exact lookup_map_replace id entry channels h
  · rw [if_neg h]
    exact lookup_append_new id entry channels (Bool.not_eq_true _ |>.mp h)

/-- Claim C7: `IOLoop._write` recognises the resource-temporarily-
unavailable condition only as the literal errno 35 (the BSD/macOS EAGAIN
value): a send failing with errno 35 re-inserts the chunk and keeps
running with no fault, while the same condition reported as errno 11
(the Linux EAGAIN value) takes the fatal branch — running is cleared,
one fault is placed on the Fault Sink with the exception-raised signal
set, and the popped chunk is dropped from the write buffer. This
contradicts the claim that the condition is retried regardless of the
platform errno value. -/
theorem c7_resource_unavailable_errno_dependent :
    ioloop_write sampleLoopState (SendResult.err 35) = sampleLoopState ∧
    (ioloop_write sampleLoopState (SendResult.err 11)).running = false ∧
    (ioloop_write sampleLoopState (SendResult.err 11)).faults
      = [Fault.connReset "localhost" 5672 "socket.error"] ∧
    (ioloop_write sampleLoopState (SendResult.err 11)).signals.exception_raised
      = true ∧
    (ioloop_write sampleLoopState (SendResult.err 11)).write_buffer = [] :=
  ⟨rfl, rfl, rfl, rfl, rfl⟩

/-- Claim C8: when every resolved address fails to connect, `IO._connect`
leaves the lifecycle state at OPENING (never OPEN), places exactly one
ConnectionException on the exception stack, sets the exception-raised
signal, and `IO.run` returns from the worker thread normally without any
exception propagating. -/
theorem c8_all_connects_fail {α : Type} (addrs : List α) (tryConnect : α → Bool)
    (host : String) (port : Nat) (faults0 : List Fault) (sigs0 : Signals)
    (h : ∀ a ∈ addrs, tryConnect a = false) :
    connect addrs tryConnect host port faults0 sigs0
      = { sock := none, state := ConnState.OPENING,
          faults := faults0 ++ [Fault.connError host port "Could not connect"],
          signals := { sigs0 with exception_raised := true } } ∧
    (connect addrs tryConnect host port faults0 sigs0).state ≠ ConnState.OPEN ∧
    run_connect_phase addrs tryConnect host port faults0 sigs0
      = Except.ok (connect addrs tryConnect host port faults0 sigs0,
                   RunPhase.returnedNoSocket) := by
  have hf : addrs.find? tryConnect = none :=
    List.find?_eq_none.mpr (fun a ha => by simp [h a ha])
  refine ⟨by simp [connect, hf], by simp [connect, hf], ?_⟩
  simp [run_connect_phase, connect, hf]

/-- Witness for C8 at a concrete two-address resolution where both
connect attempts fail. -/
theorem c8_all_connects_fail_witness :
    connect [0, 1] (fun _ => false) "localhost" 5672 [] {}
      = { sock := none, state := ConnState.OPENING,
          faults := [Fault.connError "localhost" 5672 "Could not connect"],
          signals := { exception_raised := true } } ∧
    (connect [0, 1] (fun _ => false) "localhost" 5672 [] {}).state
      ≠ ConnState.OPEN ∧
    run_connect_phase [0, 1] (fun _ => false) "localhost" 5672 [] {}
      = Except.ok (connect [0, 1] (fun _ => false) "localhost" 5672 [] {},
                   RunPhase.returnedNoSocket) := by
  simpa using c8_all_connects_fail [0, 1] (fun _ => false) "localhost" 5672 [] {}
    (fun a _ => rfl)

lemma applyEvent_running {F : Type} (marshal : F → Nat → List Nat)
    (s : LoopState F) (e : LoopEvent F) (hr : s.running = true) :
    (applyEvent marshal s e).running = true := by
  cases e with
  | enq c f => simpa [applyEvent]
  | drain => simpa [applyEvent, drain_write_queue]
  | send n =>
      simp only [applyEvent, ioloop_write, hr]
      cases s.write_buffer <;> simp [hr]
  | sendTimeout =>
      simp only [applyEvent, ioloop_write, hr]
      cases s.write_buffer <;> simp [hr]
  | sendEagain =>
      simp only [applyEvent, ioloop_write, hr]
      cases s.write_buffer <;> simp [hr]

lemma applyEvent_invariant {F : Type} (marshal : F → Nat → List Nat)
    (s : LoopState F) (e : LoopEvent F) (hr : s.running = true) :
    (applyEvent marshal s e).transmitted
        ++ pendingBytes marshal (applyEvent marshal s e)
      = s.transmitted ++ pendingBytes marshal s ++ eventBytes marshal e := by
  cases e with
  | enq c f =>
      simp [applyEvent, pendingBytes, eventBytes, marshalPair, List.append_assoc]
  | drain =>
      simp [applyEvent, drain_write_queue, pendingBytes, eventBytes,
            List.append_assoc]
  | send n =>
      simp only [applyEvent, ioloop_write, hr]
      cases hb : s.write_buffer with
      | nil => simp [pendingBytes, hb, eventBytes]
      | cons fd rest =>
          by_cases hn : n < fd.length
          · have hkey : fd.take n ++ (fd.drop n ++ (rest.flatten
                ++ (s.write_queue.map (marshalPair marshal)).flatten))
                = fd ++ (rest.flatten
                    ++ (s.write_queue.map (marshalPair marshal)).flatten) := by
              rw [← List.append_assoc, List.take_append_drop]
            simp [pendingBytes, hb, hn, eventBytes, List.append_assoc, hkey]
          · have hfd : fd.take n = fd :=
              List.take_of_length_le (Nat.le_of_not_lt hn)
            simp [pendingBytes, hb, hn, hfd, eventBytes, List.append_assoc]
  | sendTimeout =>
      simp only [applyEvent, ioloop_write, hr]
      cases hb : s.write_buffer with
      | nil => simp [pendingBytes, hb, eventBytes]
      | cons fd rest => simp [pendingBytes, hb, eventBytes, List.append_assoc]
  | sendEagain =>
      simp only [applyEvent, ioloop_write, hr]
      cases hb : s.write_buffer with
      | nil => simp [pendingBytes, hb, eventBytes]
      | cons fd rest => simp [pendingBytes, hb, eventBytes, List.append_assoc]

lemma loopRun_invariant {F : Type} (marshal : F → Nat → List Nat) :
    ∀ (evs : List (LoopEvent F)) (s : LoopState F), s.running = true →
      (loopRun marshal s evs).transmitted
          ++ pendingBytes marshal (loopRun marshal s evs)
        = s.transmitted ++ pendingBytes marshal s ++ enqueuedBytes marshal evs := by
  intro evs
  induction evs with
  | nil => intro s _; simp [loopRun, enqueuedBytes]
  | cons e evs ih =>
      intro s hr
      have h1 := applyEvent_invariant marshal s e hr
      have h2 := applyEvent_running marshal s e hr
      have hstep : loopRun marshal s (e :: evs)
          = loopRun marshal (applyEvent marshal s e) evs := rfl
      rw [hstep, ih _ h2, h1, enqueuedBytes]
      simp [List.append_assoc]

/-- Claim C1: over every schedule of enqueues, queue drains and send
attempts (partial sends of any length, send timeouts, and the
resource-temporarily-unavailable retries handled by `IOLoop._write`), the
bytes accepted by the socket followed by the bytes still pending — the
write-buffer chunks in order, then the still-queued frames' marshaled
forms in order — equal the concatenation of the marshaled forms of all
enqueued frames in enqueue order. No byte is lost, duplicated or
reordered by any split into partial sends, and once the pending bytes are
empty the transmitted bytes are exactly that concatenation. -/
theorem c1_transmitted_equals_enqueued {F : Type} (marshal : F → Nat → List Nat)
    (host : String) (port : Nat) (chan0open : Bool)
    (evs : List (LoopEvent F)) :
    (loopRun marshal (initLoopState F host port chan0open) evs).transmitted
        ++ pendingBytes marshal
            (loopRun marshal (initLoopState F host port chan0open) evs)
      = enqueuedBytes marshal evs := by
  have h := loopRun_invariant marshal evs (initLoopState F host port chan0open)
    rfl
  simpa [initLoopState, pendingBytes] using h

lemma get_frame_from_str_some {F : Type}
    (u : List Nat → Option (Nat × Nat × F)) (buf : List Nat)
    (k c : Nat) (f : F) (hu : u buf = some (k, c, f)) (hb : buf ≠ []) :
    get_frame_from_str u buf = (buf.drop k, some (c, f)) := by
  have : buf.isEmpty = false := by simp [List.isEmpty_eq_false, hb]
  simp [get_frame_from_str, this, hu]

lemma get_frame_from_str_none {F : Type}
    (u : List Nat → Option (Nat × Nat × F)) (buf : List Nat)
    (hu : u buf = none) :
    get_frame_from_str u buf = (buf, none) := by
  by_cases hb : buf = []
  · subst hb; simp [get_frame_from_str]
  · have : buf.isEmpty = false := by simp [List.isEmpty_eq_false, hb]
    simp [get_frame_from_str, this, hu]

lemma drainFuel_irrel {F : Type} (u : List Nat → Option (Nat × Nat × F))
    (h1 : ∀ b k c f, u b = some (k, c, f) → 0 < k ∧ k ≤ b.length) :
    ∀ n f1 f2 (buf : List Nat), buf.length ≤ n → buf.length ≤ f1 →
      buf.length ≤ f2 → drainFuel u f1 buf = drainFuel u f2 buf := by
  intro n
  induction n with
  | zero =>
      intro f1 f2 buf h _ _
      have hb : buf = [] := List.length_eq_zero.mp (Nat.le_zero.mp h)
      subst hb
      cases f1 <;> cases f2 <;>
        simp [drainFuel, get_frame_from_str]
  | succ n ih =>
      intro f1 f2 buf h hf1 hf2
      cases hbuf : buf with
      | nil =>
          cases f1 <;> cases f2 <;>
            simp [drainFuel, get_frame_from_str]
      | cons b bs =>
          subst hbuf
          have hlen : 0 < (b :: bs).length := by simp
          obtain ⟨g1, rfl⟩ : ∃ m, f1 = m + 1 := ⟨f1 - 1, by omega⟩
          obtain ⟨g2, rfl⟩ : ∃ m, f2 = m + 1 := ⟨f2 - 1, by omega⟩
          cases hu : u (b :: bs) with
          | none =>
              have hg := get_frame_from_str_none u (b :: bs) hu
              simp only [drainFuel, hg]
          | some kcf =>
              obtain ⟨k, c, f⟩ := kcf
              obtain ⟨hk0, hkle⟩ := h1 _ _ _ _ hu
              have hg := get_frame_from_str_some u (b :: bs) k c f hu
                (by simp)
              have hrec := ih g1 g2 ((b :: bs).drop k)
                (by simp only [List.length_drop] at *; omega)
                (by simp only [List.length_drop] at *; omega)
                (by simp only [List.length_drop] at *; omega)
              simp only [drainFuel, hg, hrec]

lemma drain_of_none {F : Type} (u : List Nat → Option (Nat × Nat × F))
    (buf : List Nat) (hu : u buf = none) : drain u buf = (buf, []) := by
  cases hbuf : buf with
  | nil => simp [drain, drainFuel]
  | cons b bs =>
      subst hbuf
      have hg := get_frame_from_str_none u (b :: bs) hu
      simp only [drain, List.length_cons, drainFuel, hg]

lemma drain_of_some {F : Type} (u : List Nat → Option (Nat × Nat × F))
    (h1 : ∀ b k c f, u b = some (k, c, f) → 0 < k ∧ k ≤ b.length)
    (buf : List Nat) (k c : Nat) (f : F) (hu : u buf = some (k, c, f)) :
    drain u buf
      = ((drain u (buf.drop k)).1, (c, f) :: (drain u (buf.drop k)).2) := by
  obtain ⟨hk0, hkle⟩ := h1 _ _ _ _ hu
  have hb : buf ≠ [] := by
    intro hnil; subst hnil; simp at hkle; omega
  obtain ⟨m, hm⟩ : ∃ m, buf.length = m + 1 := by
    cases hbuf : buf with
    | nil => exact absurd hbuf hb
    | cons x xs => exact ⟨xs.length, by simp⟩
  have hg := get_frame_from_str_some u buf k c f hu hb
  have hirr : drainFuel u m (buf.drop k)
      = drainFuel u (buf.drop k).length (buf.drop k) :=
    drainFuel_irrel u h1 (buf.drop k).length m (buf.drop k).length
      (buf.drop k) le_rfl (by simp only [List.length_drop]; omega) le_rfl
  simp only [drain, hm, drainFuel, hg, hirr]

lemma drain_leftover_quiescent {F : Type}
    (u : List Nat → Option (Nat × Nat × F))
    (h1 : ∀ b k c f, u b = some (k, c, f) → 0 < k ∧ k ≤ b.length) :
    ∀ n (buf : List Nat), buf.length ≤ n → quiescent u (drain u buf).1 := by
  intro n
  induction n with
  | zero =>
      intro buf h
      have hb : buf = [] := List.length_eq_zero.mp (Nat.le_zero.mp h)
      subst hb
      left; simp [drain, drainFuel]
  | succ n ih =>
      intro buf h
      cases hu : u buf with
      | none =>
          rw [drain_of_none u buf hu]
          right; exact hu
      | some kcf =>
          obtain ⟨k, c, f⟩ := kcf
          obtain ⟨hk0, hkle⟩ := h1 _ _ _ _ hu
          rw [drain_of_some u h1 buf k c f hu]
          exact ih (buf.drop k) (by simp only [List.length_drop]; omega)

lemma drain_append {F : Type} (u : List Nat → Option (Nat × Nat × F))
    (h1 : ∀ b k c f, u b = some (k, c, f) → 0 < k ∧ k ≤ b.length)
    (h2 : ∀ b t k c f, u b = some (k, c, f) → u (b ++ t) = some (k, c, f)) :
    ∀ n (buf t : List Nat), buf.length ≤ n →
      drain u (buf ++ t)
        = ((drain u ((drain u buf).1 ++ t)).1,
           (drain u buf).2 ++ (drain u ((drain u buf).1 ++ t)).2) := by
  intro n
  induction n with
  | zero =>
      intro buf t h
      have hb : buf = [] := List.length_eq_zero.mp (Nat.le_zero.mp h)
      subst hb
      simp [drain, drainFuel]
  | succ n ih =>
      intro buf t h
      cases hu : u buf with
      | none =>
          rw [drain_of_none u buf hu]
          simp
      | some kcf =>
          obtain ⟨k, c, f⟩ := kcf
          obtain ⟨hk0, hkle⟩ := h1 _ _ _ _ hu
          have hbt : u (buf ++ t) = some (k, c, f) := h2 _ t _ _ _ hu
          have e1 := drain_of_some u h1 buf k c f hu
          have e2 := drain_of_some u h1 (buf ++ t) k c f hbt
          have hdrop : (buf ++ t).drop k = buf.drop k ++ t :=
            List.drop_append_of_le_length hkle
          have ihs := ih (buf.drop k) t
            (by simp only [List.length_drop]; omega)
          rw [e2, hdrop, ihs, e1]
          simp

lemma on_read_append {F : Type} (u : List Nat → Option (Nat × Nat × F))
    (h1 : ∀ b k c f, u b = some (k, c, f) → 0 < k ∧ k ≤ b.length)
    (h2 : ∀ b t k c f, u b = some (k, c, f) → u (b ++ t) = some (k, c, f))
    (st : List Nat × List (Nat × F)) (d1 d2 : List Nat) :
    on_read u (on_read u st d1) d2 = on_read u st (d1 ++ d2) := by
  obtain ⟨buf, hist⟩ := st
  have hd := drain_append u h1 h2 (buf ++ d1).length (buf ++ d1) d2 le_rfl
  simp only [on_read, ← List.append_assoc, hd]

lemma on_read_nil_of_quiescent {F : Type}
    (u : List Nat → Option (Nat × Nat × F))
    (st : List Nat × List (Nat × F)) (hq : quiescent u st.1) :
    on_read u st [] = st := by
  obtain ⟨buf, hist⟩ := st
  cases hq with
  | inl h => simp only at h; subst h; simp [on_read, drain, drainFuel]
  | inr h =>
      simp only at h
      simp [on_read, drain_of_none u buf h]

lemma processChunks_eq_single {F : Type}
    (u : List Nat → Option (Nat × Nat × F))
    (h1 : ∀ b k c f, u b = some (k, c, f) → 0 < k ∧ k ≤ b.length)
    (h2 : ∀ b t k c f, u b = some (k, c, f) → u (b ++ t) = some (k, c, f)) :
    ∀ (chunks : List (List Nat)) (st : List Nat × List (Nat × F)),
      quiescent u st.1 →
      processChunks u st chunks = on_read u st chunks.flatten := by
  intro chunks
  induction chunks with
  | nil =>
      intro st hq
      simp only [processChunks, List.foldl_nil, List.flatten_nil]
      exact (on_read_nil_of_quiescent u st hq).symm
  | cons ch chs ih =>
      intro st hq
      have hq1 : quiescent u (on_read u st ch).1 :=
        drain_leftover_quiescent u h1 (st.1 ++ ch).length (st.1 ++ ch) le_rfl
      have : processChunks u st (ch :: chs)
          = processChunks u (on_read u st ch) chs := rfl
      rw [this, ih (on_read u st ch) hq1, on_read_append u h1 h2,
          List.flatten_cons]

/-- Claim C2: for every way of splitting an inbound byte stream into
chunks delivered to `IO.on_read`, the dispatched `(channel id, frame)`
sequence and the leftover buffered bytes are identical to those obtained
by delivering the whole stream as a single chunk, provided the codec
satisfies the pamqp contract: a successful unmarshal consumes between one
byte and the whole input, and its result depends only on the bytes it
consumes (so it is stable under appending further bytes). Undecodable
leftover bytes remain buffered. -/
theorem c2_chunking_invariance {F : Type}
    (u : List Nat → Option (Nat × Nat × F))
    (h1 : ∀ b k c f, u b = some (k, c, f) → 0 < k ∧ k ≤ b.length)
    (h2 : ∀ b t k c f, u b = some (k, c, f) → u (b ++ t) = some (k, c, f))
    (chunks : List (List Nat)) :
    processChunks u ([], []) chunks = on_read u ([], []) chunks.flatten :=
  processChunks_eq_single u h1 h2 chunks ([], []) (Or.inl rfl)

lemma toyUnmarshal_consumes :
    ∀ b k c f, toyUnmarshal b = some (k, c, f) → 0 < k ∧ k ≤ b.length := by
  intro b k c f h
  match b with
  | [] => simp [toyUnmarshal] at h
  | [x] => simp [toyUnmarshal] at h
  | len :: ch :: rest =>
      simp only [toyUnmarshal] at h
      split at h
      · rename_i hle
        simp only [Option.some.injEq, Prod.mk.injEq] at h
        obtain ⟨hk, -, -⟩ := h
        refine ⟨by omega, ?_⟩
        simp only [List.length_cons]
        omega
      · simp at h

lemma toyUnmarshal_stable :
    ∀ b t k c f, toyUnmarshal b = some (k, c, f) →
      toyUnmarshal (b ++ t) = some (k, c, f) := by
  intro b t k c f h
  match b with
  | [] => simp [toyUnmarshal] at h
  | [x] => simp [toyUnmarshal] at h
  | len :: ch :: rest =>
      simp only [toyUnmarshal] at h
      split at h
      · rename_i hle
        have hlen : len ≤ (rest ++ t).length := by
          simp only [List.length_append]; omega
        rw [List.cons_append, List.cons_append]
        simp only [toyUnmarshal]
        rw [if_pos hlen, List.take_append_of_le_length hle]
        exact h
      · simp at h

/-- Witness for C2: the toy length-prefixed codec satisfies the codec
contract, and a three-chunk delivery that splits one frame across a
chunk boundary dispatches the same frames and leaves the same buffered
byte as the single-chunk delivery. -/
theorem c2_chunking_invariance_witness :
    processChunks toyUnmarshal ([], []) [[2], [9, 10, 11], [0, 5, 1]]
      = on_read toyUnmarshal ([], []) [2, 9, 10, 11, 0, 5, 1] ∧
    on_read toyUnmarshal ([], []) [2, 9, 10, 11, 0, 5, 1]
      = ([1], [(9, [10, 11]), (5, [])]) :=
  ⟨c2_chunking_invariance toyUnmarshal toyUnmarshal_consumes toyUnmarshal_stable
    [[2], [9, 10, 11], [0, 5, 1]], by decide⟩

lemma dispatchTrace_append {F : Type} :
    ∀ l1 l2 : List (Nat × F),
      dispatchTrace (l1 ++ l2) = dispatchTrace l1 ++ dispatchTrace l2 := by
  intro l1 l2
  induction l1 with
  | nil => simp [dispatchTrace]
  | cons d ds ih => simp [dispatchTrace, ih, List.append_assoc]

/-- Claim C3: the frames decoded by one `IO.on_read` call are dispatched
in decode order; a frame on channel 0 is handed synchronously to the
channel-0 consumer's frame handler between the lock acquire and lock
release, and a frame on any other channel is appended to that channel's
inbound queue — so a channel-0 frame decoded before a non-zero-channel
frame is handled before the latter is queued. -/
theorem c3_channel0_sync_dispatch_order {F : Type}
    (u : List Nat → Option (Nat × Nat × F)) (buf data : List Nat)
    (A B : F) (xs ys zs : List (Nat × F)) (c : Nat) (hc : c ≠ 0)
    (hdec : (on_read u ((buf, []) : List Nat × List (Nat × F)) data).2
        = xs ++ (0, A) :: ys ++ (c, B) :: zs) :
    on_read_lock_trace u buf data
      = dispatchTrace xs
        ++ [DispatchEvent.lockAcquire, DispatchEvent.onFrame0 A,
            DispatchEvent.lockRelease]
        ++ dispatchTrace ys ++ [DispatchEvent.queuePut c B]
        ++ dispatchTrace zs := by
  unfold on_read_lock_trace
  rw [hdec]
  simp [dispatchTrace_append, dispatchTrace, dispatchOne, hc,
        List.append_assoc]

/-- Witness for C3: the byte stream decoding to a channel-0 frame
followed by a channel-5 frame produces the synchronous locked channel-0
handling before the channel-5 queue put. -/
theorem c3_channel0_sync_dispatch_order_witness :
    on_read_lock_trace toyUnmarshal [] [0, 0, 1, 5, 9]
      = [DispatchEvent.lockAcquire, DispatchEvent.onFrame0 ([] : List Nat),
         DispatchEvent.lockRelease, DispatchEvent.queuePut 5 [9]] := by
  simpa using c3_channel0_sync_dispatch_order toyUnmarshal [] [0, 0, 1, 5, 9]
    [] [9] [] [] [] 5 (by decide) (by decide)

/-- Claim C4: whenever the poller returns a non-empty errored-descriptor
set, the `IOLoop._poll` iteration sets the SOCKET_CLOSE signal, performs
no trigger drain, read or write, and the error callback places exactly
one fault on the Fault Sink — a connection-reset fault when the channel-0
consumer reports itself open and a connection-error fault otherwise —
with the exception-raised signal set. -/
theorem c4_errored_descriptor_set {F : Type} (marshal : F → Nat → List Nat)
    (s : LoopState F) (rlist wlist xlist : List Nat) (dataFd triggerFd : Nat)
    (recvRes : RecvResult) (sendRes : SendResult) (hx : xlist ≠ []) :
    (ioloop_poll marshal s rlist wlist xlist dataFd triggerFd recvRes sendRes).2
      = [] ∧
    (ioloop_poll marshal s rlist wlist xlist dataFd triggerFd recvRes
      sendRes).1.signals.socket_close = true ∧
    (ioloop_poll marshal s rlist wlist xlist dataFd triggerFd recvRes
      sendRes).1.signals.exception_raised = true ∧
    (ioloop_poll marshal s rlist wlist xlist dataFd triggerFd recvRes
      sendRes).1.faults = s.faults ++
        [if s.chan0open then Fault.connReset s.host s.port "Connection reset"
         else Fault.connError s.host s.port "Connection reset"] ∧
    (ioloop_poll marshal s rlist wlist xlist dataFd triggerFd recvRes
      sendRes).1.transmitted = s.transmitted ∧
    (ioloop_poll marshal s rlist wlist xlist dataFd triggerFd recvRes
      sendRes).1.received = s.received := by
  have hx' : xlist.isEmpty = false := by simp [List.isEmpty_eq_false, hx]
  refine ⟨?_, ?_, ?_, ?_, ?_, ?_⟩ <;>
    simp [ioloop_poll, hx', drain_write_queue, on_error]

/-- Witness for C4 at a concrete errored poll result. -/
theorem c4_errored_descriptor_set_witness :
    (ioloop_poll (fun f c => [f, c]) sampleLoopState [1] [] [9] 1 2
      (RecvResult.ok []) (SendResult.ok 0)).2 = [] ∧
    (ioloop_poll (fun f c => [f, c]) sampleLoopState [1] [] [9] 1 2
      (RecvResult.ok []) (SendResult.ok 0)).1.signals.socket_close = true ∧
    (ioloop_poll (fun f c => [f, c]) sampleLoopState [1] [] [9] 1 2
      (RecvResult.ok []) (SendResult.ok 0)).1.signals.exception_raised = true ∧
    (ioloop_poll (fun f c => [f, c]) sampleLoopState [1] [] [9] 1 2
      (RecvResult.ok []) (SendResult.ok 0)).1.faults
      = [Fault.connReset "localhost" 5672 "Connection reset"] ∧
    (ioloop_poll (fun f c => [f, c]) sampleLoopState [1] [] [9] 1 2
      (RecvResult.ok []) (SendResult.ok 0)).1.transmitted = [] ∧
    (ioloop_poll (fun f c => [f, c]) sampleLoopState [1] [] [9] 1 2
      (RecvResult.ok []) (SendResult.ok 0)).1.received = [] := by
  simpa using c4_errored_descriptor_set (fun f c => [f, c]) sampleLoopState
    [1] [] [9] 1 2 (RecvResult.ok []) (SendResult.ok 0) (by decide)

/-- Claim C5 counterexample: with only channel 0 registered, a decoded
frame on channel 7 makes the dispatcher raise a KeyError that no layer of
the I/O thread catches — the Fault Sink stays empty and no signal is set,
so the condition is not surfaced as a fault observable by the
error-reporting side. -/
theorem c5_unregistered_channel_counterexample :
    read_dispatch_chain (F := Nat)
      { channels := [(0, [])], faults := [], signals := {},
        host := "localhost", port := 5672, chan0open := true }
      [(7, 42)]
      = ({ channels := [(0, [])], faults := [], signals := {},
           host := "localhost", port := 5672, chan0open := true },
         some PyExc.keyError) := by
  decide

/-- Claim C5 (amended): a decoded frame whose channel id is not in the
registry makes the dispatch path raise a KeyError that is caught neither
by `IOLoop._read` (socket.timeout and socket.error only) nor by
`IOLoop.run` (EINTR EnvironmentError only): the exception escapes the I/O
thread and the frame is dropped with the Fault Sink and the signal set
left untouched — the condition is not surfaced as a fault. -/
theorem c5_unregistered_channel_keyerror {F : Type} (st : IOState F)
    (c : Nat) (f : F) (hc : registered st.channels c = false) :
    read_dispatch_chain st [(c, f)] = (st, some PyExc.keyError) := by
  unfold read_dispatch_chain dispatch_decoded
  by_cases h0 : c = 0
  · subst h0
    simp [hc]
  · simp [h0, add_frame_to_queue, hc]

/-- Witness for C5 (amended) at a concrete registry lacking channel 5. -/
theorem c5_unregistered_channel_keyerror_witness :
    read_dispatch_chain (F := Nat)
      { channels := [(0, []), (1, [])], faults := [], signals := {},
        host := "h", port := 1, chan0open := true }
      [(5, 9)]
      = ({ channels := [(0, []), (1, [])], faults := [], signals := {},
           host := "h", port := 1, chan0open := true },
         some PyExc.keyError) :=
  c5_unregistered_channel_keyerror
    { channels := [(0, []), (1, [])], faults := [], signals := {},
      host := "h", port := 1, chan0open := true } 5 9 (by decide)

/-- Claim C9: for a message received from the broker (method set),
`Message.nack` constructs the same frame type as `Message.ack` — a
Basic.Ack frame carrying the delivery tag — and writes it to the channel,
not a negative-acknowledgement frame type. -/
theorem c9_nack_constructs_basic_ack (m : Message) (tag : Nat)
    (h : m.method = some tag) :
    m.nack = Except.ok [AMQPFrame.basicAck tag] ∧ m.nack = m.ack := by
  simp [Message.nack, Message.ack, h]

/-- Witness for C9 at a concrete received message with delivery tag 7. -/
theorem c9_nack_constructs_basic_ack_witness :
    (Message.mk (some 7) []).nack = Except.ok [AMQPFrame.basicAck 7] ∧
    (Message.mk (some 7) []).nack = (Message.mk (some 7) []).ack :=
  c9_nack_constructs_basic_ack (Message.mk (some 7) []) 7 rfl

/-- Claim C10: publishing a message with an empty body writes exactly two
frames — the Basic.Publish method frame followed by a ContentHeader with
body size 0 — and no ContentBody frame. -/
theorem c10_publish_empty_body (m : Message) (exchange routing_key : String)
    (mfs : Nat) (hm : 0 < mfs) (hb : m.body.length = 0) :
    m.publish exchange routing_key mfs
      = [AMQPFrame.basicPublish exchange routing_key,
         AMQPFrame.contentHeader 0] := by
  unfold Message.publish
  rw [hb]
  have hp : (mfs - 1) / mfs = 0 := Nat.div_eq_of_lt (by omega)
  simp [hp]

/-- Witness for C10 at a concrete empty-bodied message and the protocol
default frame size. -/
theorem c10_publish_empty_body_witness :
    (Message.mk none []).publish "amq.direct" "rk" 131072
      = [AMQPFrame.basicPublish "amq.direct" "rk",
         AMQPFrame.contentHeader 0] :=
  c10_publish_empty_body (Message.mk none []) "amq.direct" "rk" 131072
    (by decide) rfl

end Rabbitpy
